import Mathlib

/-!
Verification of the tic-tac-toe game engine in `src/Script.js`
(class `TicTacToe`).

The game-relevant state of the JS class is embedded as the structure
`TicTacToe` below; DOM references, audio elements and the
`soundEnabled` / `musicEnabled` flags are presentation-layer state that
never feeds back into the engine fields, so they are omitted.

Correspondence with the source:
  * `this.board` (array of 9 strings `""`/`"X"`/`"O"`)  ↦  `board : List Cell`
  * `this.currentPlayer` ("X"/"O")                      ↦  `currentPlayer : Player`
  * `this.gameIsActive`                                 ↦  `gameIsActive : Bool`
  * `this.scores` (`{X, O, draw}`)                      ↦  `scores : Scores`
  * `this.winningCells` (pattern array, `[]` if none)   ↦  `winningCells : Option (Nat × Nat × Nat)`
  * `handleCellClick` (state-mutating part)             ↦  `attemptMove`
  * `checkWin` / `winPatterns`                          ↦  `checkWin` / `winPatterns`
  * `resetGame`                                         ↦  `resetGame`
  * `resetAll`                                          ↦  `resetAll`
-/

/-- A board cell: the JS strings `""`, `"X"`, `"O"`. -/
inductive Cell where
  | empty
  | X
  | O
deriving DecidableEq, Repr

/-- A player: the JS strings `"X"`, `"O"` stored in `this.currentPlayer`. -/
inductive Player where
  | X
  | O
deriving DecidableEq, Repr

/-- The cell value written by a player (`this.board[index] = this.currentPlayer`). -/
def Player.mark : Player → Cell
  | .X => .X
  | .O => .O

/-- `this.currentPlayer === "X" ? "O" : "X"` (Script.js line 106). -/
def Player.other : Player → Player
  | .X => .O
  | .O => .X

/-- `this.scores = { X: 0, O: 0, draw: 0 }` (Script.js line 29). -/
structure Scores where
  X : Nat
  O : Nat
  draw : Nat
deriving DecidableEq, Repr

/-- `this.scores[player]` read as a number. -/
def Scores.get (sc : Scores) : Player → Nat
  | .X => sc.X
  | .O => sc.O

/-- `this.scores[this.currentPlayer]++` (Script.js line 139). -/
def Scores.addWin (sc : Scores) : Player → Scores
  | .X => { sc with X := sc.X + 1 }
  | .O => { sc with O := sc.O + 1 }

/-- The engine-relevant fields of the JS class `TicTacToe`. -/
structure TicTacToe where
  board : List Cell
  currentPlayer : Player
  gameIsActive : Bool
  scores : Scores
  winningCells : Option (Nat × Nat × Nat)
deriving DecidableEq, Repr

/-- `this.winPatterns`: 3 rows, 3 columns, 2 diagonals (Script.js lines 33-42). -/
def winPatterns : List (Nat × Nat × Nat) :=
  [(0, 1, 2), (3, 4, 5), (6, 7, 8),
   (0, 3, 6), (1, 4, 7), (2, 5, 8),
   (0, 4, 8), (2, 4, 6)]

/-- One iteration of the loop body of `checkWin` (Script.js lines 117-121):
`board[a] && board[a] === board[b] && board[a] === board[c]`.
An empty string is falsy in JS, so the pattern matches exactly when the three
referenced cells are non-empty and equal. -/
def patternWins (board : List Cell) (p : Nat × Nat × Nat) : Bool :=
  decide (board.getD p.1 Cell.empty ≠ Cell.empty ∧
          board.getD p.1 Cell.empty = board.getD p.2.1 Cell.empty ∧
          board.getD p.1 Cell.empty = board.getD p.2.2 Cell.empty)

/-- `checkWin` (Script.js lines 113-127): scan `winPatterns` in order and
return the first matching pattern (the source stores it in `this.winningCells`
and returns `true`; returning the pattern itself carries the same information). -/
def checkWin (board : List Cell) : Option (Nat × Nat × Nat) :=
  winPatterns.find? (patternWins board)

/-- `this.board.every((c) => c !== "")` (Script.js line 101). -/
def boardFull (board : List Cell) : Bool :=
  board.all (fun c => decide (c ≠ Cell.empty))

/-- The state-mutating part of `handleCellClick` (Script.js lines 72-110),
with `handleWin` (lines 130-162) and `handleDraw` (lines 165-187) inlined the
way the source calls them.  The guard `this.board[index] === "" &&
this.gameIsActive` rejects occupied cells, inactive games, and out-of-range
indices (for which `this.board[index]` is `undefined`, never `""`); rejection
leaves the state untouched and throws nothing.  The `setTimeout` auto-reset in
`handleWin`/`handleDraw` is a deferred presentation-layer callback, not part of
the synchronous engine transition modelled here. -/
def attemptMove (s : TicTacToe) (index : Nat) : TicTacToe :=
  if s.board[index]? = some Cell.empty ∧ s.gameIsActive = true then
    let board := s.board.set index s.currentPlayer.mark
    match checkWin board with
    | some pattern =>
        { s with board := board, gameIsActive := false,
                 winningCells := some pattern,
                 scores := s.scores.addWin s.currentPlayer }
    | none =>
        if boardFull board then
          { s with board := board, gameIsActive := false,
                   scores := { s.scores with draw := s.scores.draw + 1 } }
        else
          { s with board := board, currentPlayer := s.currentPlayer.other }
  else s

/-- `resetGame` (Script.js lines 190-213): `this.board.fill("")` empties every
cell in place (preserving the array length), then the turn, activity flag and
winning cells are reset; `this.scores` is not touched. -/
def resetGame (s : TicTacToe) : TicTacToe :=
  { s with board := s.board.map (fun _ => Cell.empty),
           currentPlayer := .X,
           gameIsActive := true,
           winningCells := none }

/-- `resetAll` (Script.js lines 305-313): zero the scores, then `resetGame`. -/
def resetAll (s : TicTacToe) : TicTacToe :=
  resetGame { s with scores := { X := 0, O := 0, draw := 0 } }

/-- The constructor state (Script.js lines 22-30): empty 9-cell board,
`X` to move, game active, zero scores, no winning cells. -/
def initState : TicTacToe :=
  { board := List.replicate 9 Cell.empty,
    currentPlayer := .X,
    gameIsActive := true,
    scores := { X := 0, O := 0, draw := 0 },
    winningCells := none }

/-- The spec's `GamePhase` observation (spec §3).  The source keeps only the
boolean `gameIsActive`; the Won/Draw distinction of an inactive state is
recoverable because `handleWin` runs exactly when `checkWin` found a line on
the board (and leaves `currentPlayer` at the winner, untouched), while
`handleDraw` runs only when no line exists. -/
inductive GamePhase where
  | inProgress
  | won (p : Player)
  | draw
deriving DecidableEq, Repr

/-- The phase of an engine state, read off the stored fields. -/
def phase (s : TicTacToe) : GamePhase :=
  if s.gameIsActive = true then .inProgress
  else
    match checkWin s.board with
    | some _ => .won s.currentPlayer
    | none => .draw

/-- States reachable from the constructor state by engine calls. -/
inductive Reachable : TicTacToe → Prop where
  | init : Reachable initState
  | move (s : TicTacToe) (i : Nat) : Reachable s → Reachable (attemptMove s i)
  | reset (s : TicTacToe) : Reachable s → Reachable (resetGame s)
  | resetFull (s : TicTacToe) : Reachable s → Reachable (resetAll s)

/-- Number of cells holding `c`. -/
def countCell (c : Cell) (board : List Cell) : Nat :=
  (board.filter (fun x => decide (x = c))).length

example : attemptMove initState 0 =
    { initState with
        board := [Cell.X, Cell.empty, Cell.empty, Cell.empty, Cell.empty,
                  Cell.empty, Cell.empty, Cell.empty, Cell.empty],
        currentPlayer := .O } := by decide

example : attemptMove initState 9 = initState := by decide

/-! ### Helper lemmas -/

theorem attemptMove_rejected (s : TicTacToe) (i : Nat)
    (h : ¬ (s.board[i]? = some Cell.empty ∧ s.gameIsActive = true)) :
    attemptMove s i = s := by
  simp only [attemptMove, if_neg h]

theorem attemptMove_win_eq (s : TicTacToe) (i : Nat) (p : Nat × Nat × Nat)
    (hcell : s.board[i]? = some Cell.empty) (hact : s.gameIsActive = true)
    (hwin : checkWin (s.board.set i s.currentPlayer.mark) = some p) :
    attemptMove s i =
      { s with board := s.board.set i s.currentPlayer.mark,
               gameIsActive := false,
               winningCells := some p,
               scores := s.scores.addWin s.currentPlayer } := by
  simp [attemptMove, hcell, hact, hwin]

theorem attemptMove_draw_eq (s : TicTacToe) (i : Nat)
    (hcell : s.board[i]? = some Cell.empty) (hact : s.gameIsActive = true)
    (hnowin : checkWin (s.board.set i s.currentPlayer.mark) = none)
    (hfull : boardFull (s.board.set i s.currentPlayer.mark) = true) :
    attemptMove s i =
      { s with board := s.board.set i s.currentPlayer.mark,
               gameIsActive := false,
               scores := { s.scores with draw := s.scores.draw + 1 } } := by
  simp [attemptMove, hcell, hact, hnowin, hfull]

theorem attemptMove_continue_eq (s : TicTacToe) (i : Nat)
    (hcell : s.board[i]? = some Cell.empty) (hact : s.gameIsActive = true)
    (hnowin : checkWin (s.board.set i s.currentPlayer.mark) = none)
    (hnotfull : boardFull (s.board.set i s.currentPlayer.mark) = false) :
    attemptMove s i =
      { s with board := s.board.set i s.currentPlayer.mark,
               currentPlayer := s.currentPlayer.other } := by
  simp [attemptMove, hcell, hact, hnowin, hnotfull]

theorem phase_of_active (s : TicTacToe) (h : s.gameIsActive = true) :
    phase s = GamePhase.inProgress := by
  simp [phase, h]

theorem phase_ne_inProgress (s : TicTacToe) (h : phase s ≠ GamePhase.inProgress) :
    s.gameIsActive = false := by
  by_contra hb
  exact h (phase_of_active s (by revert hb; cases s.gameIsActive <;> simp))

theorem addWin_get_self (sc : Scores) (p : Player) :
    (sc.addWin p).get p = sc.get p + 1 := by
  cases p <;> rfl

theorem addWin_get_other (sc : Scores) (p : Player) :
    (sc.addWin p).get p.other = sc.get p.other := by
  cases p <;> rfl

theorem addWin_draw (sc : Scores) (p : Player) :
    (sc.addWin p).draw = sc.draw := by
  cases p <;> rfl

/-- `List.find?` returns the first element satisfying the predicate: every
earlier element fails it. -/
theorem find?_first {α : Type} (P : α → Bool) :
    ∀ (l : List α) (x : α), l.find? P = some x →
      ∃ k : Nat, l[k]? = some x ∧ P x = true ∧
        ∀ j : Nat, j < k → ∀ y, l[j]? = some y → P y = false := by
  intro l
  induction l with
  | nil => intro x h; simp at h
  | cons hd tl ih =>
    intro x h
    by_cases hp : P hd = true
    · rw [List.find?_cons_of_pos _ hp] at h
      refine ⟨0, ?_, ?_, ?_⟩
      · simpa using Option.some_inj.mp h
      · rw [← Option.some_inj.mp h]; exact hp
      · intro j hj; omega
    · rw [List.find?_cons_of_neg _ (by simpa using hp)] at h
      obtain ⟨k, hk, hx, hfirst⟩ := ih x h
      refine ⟨k + 1, by simpa using hk, hx, ?_⟩
      intro j hj y hy
      cases j with
      | zero =>
        simp at hy
        rw [← hy]
        exact Bool.not_eq_true _ ▸ hp
      | succ m =>
        exact hfirst m (by omega) y (by simpa using hy)

theorem countCell_cons (c x : Cell) (l : List Cell) :
    countCell c (x :: l) = countCell c l + (if x = c then 1 else 0) := by
  by_cases h : x = c <;> simp [countCell, List.filter_cons, h]

/-- Overwriting a cell known to hold `a` shifts the counts by the obvious
amounts (stated additively to avoid truncated subtraction). -/
theorem countCell_set (c : Cell) :
    ∀ (l : List Cell) (i : Nat) (a v : Cell), l[i]? = some a →
      countCell c (l.set i v) + (if a = c then 1 else 0) =
        countCell c l + (if v = c then 1 else 0) := by
  intro l
  induction l with
  | nil => intro i a v h; simp at h
  | cons hd tl ih =>
    intro i a v h
    cases i with
    | zero =>
      simp at h
      subst h
      simp [List.set, countCell_cons]
      omega
    | succ n =>
      simp at h
      have := ih n a v h
      simp [List.set, countCell_cons]
      omega

theorem countCell_map_empty (c : Cell) (hc : c ≠ Cell.empty) (l : List Cell) :
    countCell c (l.map (fun _ => Cell.empty)) = 0 := by
  induction l with
  | nil => rfl
  | cons hd tl ih => simpa [countCell_cons, Ne.symm hc] using ih

/-- Strengthened inductive invariant behind claim C4: while the game is
active the mark counts are determined by whose turn it is; once it is
inactive they differ by at most one. -/
def turnInv (s : TicTacToe) : Prop :=
  (s.gameIsActive = true →
    (s.currentPlayer = Player.X →
      countCell Cell.X s.board = countCell Cell.O s.board) ∧
    (s.currentPlayer = Player.O →
      countCell Cell.X s.board = countCell Cell.O s.board + 1)) ∧
  (s.gameIsActive = false →
    countCell Cell.X s.board = countCell Cell.O s.board ∨
    countCell Cell.X s.board = countCell Cell.O s.board + 1)

theorem turnInv_attemptMove (s : TicTacToe) (i : Nat) (h : turnInv s) :
    turnInv (attemptMove s i) := by
  by_cases hg : s.board[i]? = some Cell.empty ∧ s.gameIsActive = true
  · obtain ⟨hcell, hact⟩ := hg
    have hX := countCell_set Cell.X s.board i Cell.empty s.currentPlayer.mark hcell
    have hO := countCell_set Cell.O s.board i Cell.empty s.currentPlayer.mark hcell
    have hkey : (s.currentPlayer.other = Player.X →
        countCell Cell.X (s.board.set i s.currentPlayer.mark) =
          countCell Cell.O (s.board.set i s.currentPlayer.mark)) ∧
        (s.currentPlayer.other = Player.O →
        countCell Cell.X (s.board.set i s.currentPlayer.mark) =
          countCell Cell.O (s.board.set i s.currentPlayer.mark) + 1) := by
      obtain ⟨ha, _⟩ := h
      have hb := ha hact
      cases hcp : s.currentPlayer with
      | X =>
        have heq := hb.1 hcp
        rw [hcp] at hX hO
        simp [Player.mark, Player.other] at hX hO ⊢
        omega
      | O =>
        have heq := hb.2 hcp
        rw [hcp] at hX hO
        simp [Player.mark, Player.other] at hX hO ⊢
        omega
    have hdisj : countCell Cell.X (s.board.set i s.currentPlayer.mark) =
          countCell Cell.O (s.board.set i s.currentPlayer.mark) ∨
        countCell Cell.X (s.board.set i s.currentPlayer.mark) =
          countCell Cell.O (s.board.set i s.currentPlayer.mark) + 1 := by
      cases hco : s.currentPlayer.other with
      | X => exact Or.inl (hkey.1 hco)
      | O => exact Or.inr (hkey.2 hco)
    rcases hw : checkWin (s.board.set i s.currentPlayer.mark) with _ | p
    · by_cases hf : boardFull (s.board.set i s.currentPlayer.mark) = true
      · rw [attemptMove_draw_eq s i hcell hact hw hf]
        exact ⟨fun hh => by simp at hh, fun _ => hdisj⟩
      · rw [attemptMove_continue_eq s i hcell hact hw
          (by revert hf; cases boardFull (s.board.set i s.currentPlayer.mark) <;> simp)]
        exact ⟨fun _ => hkey, fun _ => hdisj⟩
    · rw [attemptMove_win_eq s i p hcell hact hw]
      exact ⟨fun hh => by simp at hh, fun _ => hdisj⟩
  · rw [attemptMove_rejected s i hg]
    exact h

theorem turnInv_resetGame (s : TicTacToe) : turnInv (resetGame s) := by
  refine ⟨fun _ => ⟨fun _ => ?_, fun hco => ?_⟩, fun hh => ?_⟩
  · show countCell Cell.X (s.board.map fun _ => Cell.empty) =
        countCell Cell.O (s.board.map fun _ => Cell.empty)
    rw [countCell_map_empty Cell.X (by decide), countCell_map_empty Cell.O (by decide)]
  · exact absurd hco (by simp [resetGame])
  · exact absurd hh (by simp [resetGame])

theorem turnInv_resetAll (s : TicTacToe) : turnInv (resetAll s) := by
  unfold resetAll
  exact turnInv_resetGame _

theorem turnInv_reachable (s : TicTacToe) (h : Reachable s) : turnInv s := by
  induction h with
  | init =>
    exact ⟨fun _ => ⟨fun _ => rfl, fun hco => by simp [initState] at hco⟩,
           fun hh => by simp [initState] at hh⟩
  | move s i _ ih => exact turnInv_attemptMove s i ih
  | reset s _ _ => exact turnInv_resetGame s
  | resetFull s _ _ => exact turnInv_resetAll s

/-! ### Concrete game runs used to instantiate the theorems -/

/-- The spec §8 win scenario after the first four moves [0,3,1,4]:
`X` at 0 and 1, `O` at 3 and 4, `X` to move. -/
def nearWinState : TicTacToe :=
  attemptMove (attemptMove (attemptMove (attemptMove initState 0) 3) 1) 4

/-- The state after `X` completes the top row at cell 2: a Won state. -/
def wonState : TicTacToe :=
  attemptMove nearWinState 2

/-- The spec §8 draw scenario after the first eight moves
[0,1,2,4,3,5,7,6]: only cell 8 is still empty and no line is complete. -/
def nearDrawState : TicTacToe :=
  attemptMove (attemptMove (attemptMove (attemptMove (attemptMove
    (attemptMove (attemptMove (attemptMove initState 0) 1) 2) 4) 3) 5) 7) 6

example : wonState.gameIsActive = false := by decide

example : nearDrawState.gameIsActive = true := by decide

/-! ### Claim theorems -/

/-- Claim C1: every `attemptMove` that completes one of the 8 win patterns
turns the phase into Won(mover), increments the mover's scoreboard counter by
exactly 1 (leaving the other counters alone), and afterwards no `attemptMove`
changes the state at all until `resetGame`/`resetAll`. -/
theorem attemptMove_win_spec (s : TicTacToe) (i : Nat) (p : Nat × Nat × Nat)
    (hcell : s.board[i]? = some Cell.empty) (hact : s.gameIsActive = true)
    (hwin : checkWin (s.board.set i s.currentPlayer.mark) = some p) :
    phase (attemptMove s i) = GamePhase.won s.currentPlayer ∧
    (attemptMove s i).scores.get s.currentPlayer = s.scores.get s.currentPlayer + 1 ∧
    (attemptMove s i).scores.get s.currentPlayer.other = s.scores.get s.currentPlayer.other ∧
    (attemptMove s i).scores.draw = s.scores.draw ∧
    ∀ j : Nat, attemptMove (attemptMove s i) j = attemptMove s i := by
  rw [attemptMove_win_eq s i p hcell hact hwin]
  refine ⟨by simp [phase, hwin], addWin_get_self _ _, addWin_get_other _ _,
    addWin_draw _ _, fun j => ?_⟩
  apply attemptMove_rejected
  rintro ⟨-, hh⟩
  simp at hh

/-- Claim C1, instantiated: `X` completing the top row from `nearWinState`. -/
theorem attemptMove_win_spec_witness :
    phase (attemptMove nearWinState 2) = GamePhase.won nearWinState.currentPlayer ∧
    (attemptMove nearWinState 2).scores.get nearWinState.currentPlayer =
      nearWinState.scores.get nearWinState.currentPlayer + 1 ∧
    (attemptMove nearWinState 2).scores.get nearWinState.currentPlayer.other =
      nearWinState.scores.get nearWinState.currentPlayer.other ∧
    (attemptMove nearWinState 2).scores.draw = nearWinState.scores.draw ∧
    ∀ j : Nat, attemptMove (attemptMove nearWinState 2) j = attemptMove nearWinState 2 :=
  attemptMove_win_spec nearWinState 2 (0, 1, 2) (by decide) (by decide) (by decide)

/-- Claim C5: the winning pattern recorded in `winningCells` is the first
pattern of the fixed enumeration (3 rows, 3 columns, 2 diagonals in
`winPatterns`) whose three cells are non-empty and equal; all earlier patterns
fail the test, so the choice is deterministic even when several match. -/
theorem checkWin_first_pattern (s : TicTacToe) (i : Nat) (p : Nat × Nat × Nat)
    (hcell : s.board[i]? = some Cell.empty) (hact : s.gameIsActive = true)
    (hwin : checkWin (s.board.set i s.currentPlayer.mark) = some p) :
    (attemptMove s i).winningCells = some p ∧
    patternWins (s.board.set i s.currentPlayer.mark) p = true ∧
    ∃ k : Nat, winPatterns[k]? = some p ∧
      ∀ j : Nat, j < k → ∀ q, winPatterns[j]? = some q →
        patternWins (s.board.set i s.currentPlayer.mark) q = false := by
  obtain ⟨k, hk, hpx, hfirst⟩ :=
    find?_first (patternWins (s.board.set i s.currentPlayer.mark)) winPatterns p hwin
  exact ⟨by rw [attemptMove_win_eq s i p hcell hact hwin], hpx, k, hk, hfirst⟩

/-- Claim C5, instantiated on the top-row win. -/
theorem checkWin_first_pattern_witness :
    (attemptMove nearWinState 2).winningCells = some (0, 1, 2) ∧
    patternWins (nearWinState.board.set 2 nearWinState.currentPlayer.mark) (0, 1, 2) = true ∧
    ∃ k : Nat, winPatterns[k]? = some (0, 1, 2) ∧
      ∀ j : Nat, j < k → ∀ q, winPatterns[j]? = some q →
        patternWins (nearWinState.board.set 2 nearWinState.currentPlayer.mark) q = false :=
  checkWin_first_pattern nearWinState 2 (0, 1, 2) (by decide) (by decide) (by decide)

/-- Claim C6: after every accepted move that neither wins nor fills the board,
`currentPlayer` toggles to the other player and the game stays in progress, so
successive movers strictly alternate. -/
theorem attemptMove_alternation (s : TicTacToe) (i : Nat)
    (hcell : s.board[i]? = some Cell.empty) (hact : s.gameIsActive = true)
    (hnowin : checkWin (s.board.set i s.currentPlayer.mark) = none)
    (hnotfull : boardFull (s.board.set i s.currentPlayer.mark) = false) :
    (attemptMove s i).currentPlayer = s.currentPlayer.other ∧
    phase (attemptMove s i) = GamePhase.inProgress := by
  rw [attemptMove_continue_eq s i hcell hact hnowin hnotfull]
  exact ⟨rfl, by simp [phase, hact]⟩

/-- Claim C6, instantiated: the first move of a game hands the turn to `O`. -/
theorem attemptMove_alternation_witness :
    (attemptMove initState 0).currentPlayer = initState.currentPlayer.other ∧
    phase (attemptMove initState 0) = GamePhase.inProgress :=
  attemptMove_alternation initState 0 (by decide) (by decide) (by decide) (by decide)

/-- Claim C10: an accepted winning move does not toggle `currentPlayer`
(so the Won-phase snapshot reports the winner as `currentPlayer`), a drawing
move does not toggle it either, and the toggle happens exactly on moves whose
outcome is Continue. -/
theorem win_keeps_currentPlayer (s : TicTacToe) (i : Nat)
    (hcell : s.board[i]? = some Cell.empty) (hact : s.gameIsActive = true) :
    (∀ p, checkWin (s.board.set i s.currentPlayer.mark) = some p →
      (attemptMove s i).currentPlayer = s.currentPlayer ∧
      phase (attemptMove s i) = GamePhase.won s.currentPlayer) ∧
    (checkWin (s.board.set i s.currentPlayer.mark) = none →
      boardFull (s.board.set i s.currentPlayer.mark) = true →
      (attemptMove s i).currentPlayer = s.currentPlayer) ∧
    (checkWin (s.board.set i s.currentPlayer.mark) = none →
      boardFull (s.board.set i s.currentPlayer.mark) = false →
      (attemptMove s i).currentPlayer = s.currentPlayer.other) := by
  refine ⟨fun p hw => ?_, fun hn hf => ?_, fun hn hf => ?_⟩
  · rw [attemptMove_win_eq s i p hcell hact hw]
    exact ⟨rfl, by simp [phase, hw]⟩
  · rw [attemptMove_draw_eq s i hcell hact hn hf]
  · rw [attemptMove_continue_eq s i hcell hact hn hf]

/-- Claim C10, instantiated on the top-row win. -/
theorem win_keeps_currentPlayer_witness :
    (∀ p, checkWin (nearWinState.board.set 2 nearWinState.currentPlayer.mark) = some p →
      (attemptMove nearWinState 2).currentPlayer = nearWinState.currentPlayer ∧
      phase (attemptMove nearWinState 2) = GamePhase.won nearWinState.currentPlayer) ∧
    (checkWin (nearWinState.board.set 2 nearWinState.currentPlayer.mark) = none →
      boardFull (nearWinState.board.set 2 nearWinState.currentPlayer.mark) = true →
      (attemptMove nearWinState 2).currentPlayer = nearWinState.currentPlayer) ∧
    (checkWin (nearWinState.board.set 2 nearWinState.currentPlayer.mark) = none →
      boardFull (nearWinState.board.set 2 nearWinState.currentPlayer.mark) = false →
      (attemptMove nearWinState 2).currentPlayer = nearWinState.currentPlayer.other) :=
  win_keeps_currentPlayer nearWinState 2 (by decide) (by decide)

/-- Claim C2: for an accepted move that completes no win pattern, the engine
reaches the Draw phase exactly when the resulting board has no empty cell, and
in that case `scores.draw` goes up by exactly 1 (the player counters are
untouched); otherwise the draw counter and the InProgress phase are kept.
Applied along any sequence of moves that fills the board without a win, this
yields Draw exactly at the ninth mark with a single draw increment. -/
theorem attemptMove_draw_spec (s : TicTacToe) (i : Nat)
    (hcell : s.board[i]? = some Cell.empty) (hact : s.gameIsActive = true)
    (hnowin : checkWin (s.board.set i s.currentPlayer.mark) = none) :
    (phase (attemptMove s i) = GamePhase.draw ↔
      boardFull (attemptMove s i).board = true) ∧
    (boardFull (s.board.set i s.currentPlayer.mark) = true →
      (attemptMove s i).scores.draw = s.scores.draw + 1 ∧
      (attemptMove s i).scores.X = s.scores.X ∧
      (attemptMove s i).scores.O = s.scores.O ∧
      phase (attemptMove s i) = GamePhase.draw) ∧
    (boardFull (s.board.set i s.currentPlayer.mark) = false →
      (attemptMove s i).scores.draw = s.scores.draw ∧
      phase (attemptMove s i) = GamePhase.inProgress) := by
  by_cases hf : boardFull (s.board.set i s.currentPlayer.mark) = true
  · have he := attemptMove_draw_eq s i hcell hact hnowin hf
    have hph : phase (attemptMove s i) = GamePhase.draw := by
      rw [he]; simp [phase, hnowin]
    refine ⟨⟨fun _ => by rw [he]; exact hf, fun _ => hph⟩,
      fun _ => ⟨by rw [he], by rw [he], by rw [he], hph⟩,
      fun hq => by rw [hf] at hq; cases hq⟩
  · have hf' : boardFull (s.board.set i s.currentPlayer.mark) = false := by
      revert hf; cases boardFull (s.board.set i s.currentPlayer.mark) <;> simp
    have he := attemptMove_continue_eq s i hcell hact hnowin hf'
    have hph : phase (attemptMove s i) = GamePhase.inProgress := by
      rw [he]; simp [phase, hact]
    refine ⟨⟨fun hd => ?_, fun hb => ?_⟩, fun hq => absurd hq hf,
      fun _ => ⟨by rw [he], hph⟩⟩
    · rw [hph] at hd; cases hd
    · rw [he] at hb
      exact absurd hb hf

/-- Claim C2, instantiated: the ninth move of the spec §8 draw scenario. -/
theorem attemptMove_draw_spec_witness :
    (phase (attemptMove nearDrawState 8) = GamePhase.draw ↔
      boardFull (attemptMove nearDrawState 8).board = true) ∧
    (boardFull (nearDrawState.board.set 8 nearDrawState.currentPlayer.mark) = true →
      (attemptMove nearDrawState 8).scores.draw = nearDrawState.scores.draw + 1 ∧
      (attemptMove nearDrawState 8).scores.X = nearDrawState.scores.X ∧
      (attemptMove nearDrawState 8).scores.O = nearDrawState.scores.O ∧
      phase (attemptMove nearDrawState 8) = GamePhase.draw) ∧
    (boardFull (nearDrawState.board.set 8 nearDrawState.currentPlayer.mark) = false →
      (attemptMove nearDrawState 8).scores.draw = nearDrawState.scores.draw ∧
      phase (attemptMove nearDrawState 8) = GamePhase.inProgress) :=
  attemptMove_draw_spec nearDrawState 8 (by decide) (by decide) (by decide)

/-- Claim C3: on a 9-cell board, `attemptMove` is a pure no-op — returning the
state unchanged rather than throwing — whenever the phase is not InProgress,
or the target cell is occupied, or the index lies outside [0,8] (for which the
source reads `undefined`, which fails the `=== ""` guard). -/
theorem attemptMove_rejected_spec (s : TicTacToe) (i : Nat)
    (hlen : s.board.length = 9)
    (h : phase s ≠ GamePhase.inProgress ∨
         (∃ c, s.board[i]? = some c ∧ c ≠ Cell.empty) ∨
         9 ≤ i) :
    attemptMove s i = s := by
  apply attemptMove_rejected
  rcases h with h | ⟨c, hc, hne⟩ | h
  · rintro ⟨-, hact⟩
    rw [phase_ne_inProgress s h] at hact
    cases hact
  · rintro ⟨hcell, -⟩
    rw [hc] at hcell
    exact hne (Option.some_inj.mp hcell)
  · rintro ⟨hcell, -⟩
    rw [List.getElem?_eq_none (by omega)] at hcell
    cases hcell

/-- Claim C3, instantiated: a click in the Won state is ignored. -/
theorem attemptMove_rejected_spec_witness :
    attemptMove wonState 5 = wonState :=
  attemptMove_rejected_spec wonState 5 (by decide) (Or.inl (by decide))

/-- Claim C4: in every state reachable from the constructor state by
`attemptMove` / `resetGame` / `resetAll` calls, the number of `X` marks equals
the number of `O` marks or exceeds it by exactly one. -/
theorem board_count_invariant (s : TicTacToe) (h : Reachable s) :
    countCell Cell.X s.board = countCell Cell.O s.board ∨
    countCell Cell.X s.board = countCell Cell.O s.board + 1 := by
  have hi := turnInv_reachable s h
  by_cases hg : s.gameIsActive = true
  · have hb := hi.1 hg
    cases hcp : s.currentPlayer with
    | X => exact Or.inl (hb.1 hcp)
    | O => exact Or.inr (hb.2 hcp)
  · exact hi.2 (by revert hg; cases s.gameIsActive <;> simp)

/-- Claim C4, instantiated after one move. -/
theorem board_count_invariant_witness :
    countCell Cell.X (attemptMove initState 4).board =
      countCell Cell.O (attemptMove initState 4).board ∨
    countCell Cell.X (attemptMove initState 4).board =
      countCell Cell.O (attemptMove initState 4).board + 1 :=
  board_count_invariant (attemptMove initState 4)
    (Reachable.move initState 4 Reachable.init)

/-- Claim C7: from any prior state of the usual 9-cell shape, `resetGame`
yields the all-empty board, `X` to move, phase InProgress and no winning
cells, while the scoreboard is exactly preserved. -/
theorem resetGame_spec (s : TicTacToe) (hlen : s.board.length = 9) :
    (resetGame s).board = List.replicate 9 Cell.empty ∧
    (resetGame s).currentPlayer = Player.X ∧
    phase (resetGame s) = GamePhase.inProgress ∧
    (resetGame s).winningCells = none ∧
    (resetGame s).scores = s.scores := by
  refine ⟨?_, rfl, by simp [phase, resetGame], rfl, rfl⟩
  show s.board.map (fun _ => Cell.empty) = List.replicate 9 Cell.empty
  rw [List.eq_replicate_iff]
  exact ⟨by simp [hlen], by simp⟩

/-- Claim C7, instantiated on the Won state. -/
theorem resetGame_spec_witness :
    (resetGame wonState).board = List.replicate 9 Cell.empty ∧
    (resetGame wonState).currentPlayer = Player.X ∧
    phase (resetGame wonState) = GamePhase.inProgress ∧
    (resetGame wonState).winningCells = none ∧
    (resetGame wonState).scores = wonState.scores :=
  resetGame_spec wonState (by decide)

/-- Claim C8: `resetAll` produces exactly the board, mover, phase and
winning-cell state of `resetGame`, and additionally zeroes all three
scoreboard counters. -/
theorem resetAll_spec (s : TicTacToe) :
    (resetAll s).board = (resetGame s).board ∧
    (resetAll s).currentPlayer = (resetGame s).currentPlayer ∧
    phase (resetAll s) = phase (resetGame s) ∧
    (resetAll s).winningCells = (resetGame s).winningCells ∧
    (resetAll s).scores = { X := 0, O := 0, draw := 0 } :=
  ⟨rfl, rfl, rfl, rfl, rfl⟩

/-- Claim C9: a terminal phase (Won or Draw) persists under `attemptMove`,
which is then a complete no-op, and is exited exactly by the explicit resets,
which always restore the InProgress phase; the engine itself contains no
other transition (the timed auto-reset lives in the presentation layer). -/
theorem terminal_phase_persists (s : TicTacToe) (i : Nat) :
    (phase s ≠ GamePhase.inProgress → attemptMove s i = s) ∧
    phase (resetGame s) = GamePhase.inProgress ∧
    phase (resetAll s) = GamePhase.inProgress := by
  refine ⟨fun h => ?_, by simp [phase, resetGame], by simp [phase, resetAll, resetGame]⟩
  apply attemptMove_rejected
  rintro ⟨-, hact⟩
  rw [phase_ne_inProgress s h] at hact
  cases hact

/-- Claim C9, instantiated on the Won state. -/
theorem terminal_phase_persists_witness :
    attemptMove wonState 5 = wonState ∧
    phase (resetGame wonState) = GamePhase.inProgress ∧
    phase (resetAll wonState) = GamePhase.inProgress :=
  ⟨(terminal_phase_persists wonState 5).1 (by decide),
   (terminal_phase_persists wonState 5).2.1,
   (terminal_phase_persists wonState 5).2.2⟩
